import Mathlib

/-!
Verification development for the AI Playground frontend repository.

The repository is a browser UI that uploads audio, image and document files
to a backend job API, polls a status endpoint and renders results.  The
definitions below are shallow embeddings of the relevant TypeScript source:

- `pollAux` / `pollForResults` embed `TranscriptService.pollForResults`.
  The sequence of backend responses is passed explicitly as `env : Nat →
  StatusResp` (indexed by the number of status requests issued so far) and
  `resEnv : Nat → Option ProcessingResult` for the separate result fetch.
  The loop `while (attempts < 120)` is embedded with a fuel argument that
  equals `120 - attempts`; every continuing iteration of the source loop
  increments `attempts` by exactly one, so the two presentations coincide.
  The returned `PollTrace` records the outcome together with the number of
  status requests issued, the list of `onProgress` invocations and the list
  of delays (in milliseconds) that were awaited.
- `inlinePoll` embeds the inline `while (true)` polling loop that appears,
  with identical structure, in `ImageAnalysis.processImage` and in
  `DocumentSummarization.processDocument`; the fuel argument is the number
  of loop iterations observed.
- `validateAudioFile`, `validateImageFile`, `validateDocumentFile` and the
  corresponding `handleFile` functions embed the client side validation of
  the three uploaders.
- `diarizeTranscript` and its helpers embed `DiarizationService`.
- `generateSummary` embeds `TranscriptService.generateSummary`.

JavaScript numbers that no claim inspects (durations, confidences) are
modelled as `Int`; machine floating point is never needed by the claims.
-/

/-- Result record returned by the backend, from the `ProcessingResult`
interface of `TranscriptService`. -/
structure ProcessingResult where
  transcript : String
  diarization : List (String × String × Int × Int × Option Int)
  summary : String
  duration : Int
  num_speakers : Nat
  language : Option String
  processing_time : Int
  model_info : List (String × String)
deriving DecidableEq

/-- One response of the `/status/{job_id}` endpoint as observed by the
frontend: either the request threw or returned non-2xx (`netErr`), or it
delivered a parsed `ProcessingStatus` record with status string, progress,
message and optional inline result. -/
inductive StatusResp where
  | netErr
  | ok (status : String) (progress : Nat) (message : String)
       (result : Option ProcessingResult)
deriving DecidableEq

/-- The errors `pollForResults` can throw: a failed status request, a failed
result fetch, a backend-reported failure carrying the backend message, or
the attempt budget running out. -/
inductive PollError where
  | statusCheckFailed
  | resultFetchFailed
  | processingFailed (message : String)
  | timeout
deriving DecidableEq

/-- Final outcome of `pollForResults`. -/
inductive PollOutcome where
  | success (r : ProcessingResult)
  | failure (e : PollError)
deriving DecidableEq

/-- Observable trace of one run of `pollForResults`: outcome, number of
status requests issued, `onProgress` invocations (progress and message), the
delays awaited in milliseconds, and the number of result-endpoint fetches. -/
structure PollTrace where
  outcome : PollOutcome
  reqs : Nat
  cbs : List (Nat × String)
  dels : List Nat
  resReqs : Nat
deriving DecidableEq

/-- Loop body of `TranscriptService.pollForResults`.  The fuel argument is
`maxAttempts - attempts`; a fuel of zero is exactly the loop exit
`attempts = maxAttempts = 120`, after which the timeout error is thrown.
Inside the loop, the entire body sits in a try block whose catch clause
retries with a 2000 ms delay while `attempts < 3` and otherwise rethrows;
both the network error and the throw on a `failed` status (and the throw on
a failed result fetch) land in that catch clause, faithfully to the source. -/
def pollAux (env : Nat → StatusResp) (resEnv : Nat → Option ProcessingResult)
    (hasCb : Bool) :
    Nat → Nat → Nat → Nat → List (Nat × String) → List Nat → PollTrace
  | 0, _, reqs, resReqs, cbs, dels =>
    ⟨PollOutcome.failure PollError.timeout, reqs, cbs, dels, resReqs⟩
  | fuel+1, attempts, reqs, resReqs, cbs, dels =>
    match env reqs with
    | StatusResp.netErr =>
      if attempts < 3 then
        pollAux env resEnv hasCb fuel (attempts+1) (reqs+1) resReqs cbs
          (dels ++ [2000])
      else ⟨PollOutcome.failure PollError.statusCheckFailed, reqs+1, cbs,
            dels, resReqs⟩
    | StatusResp.ok st p m res =>
      let cbs1 := if hasCb then cbs ++ [(p, m)] else cbs
      if st = "completed" then
        match res with
        | some r => ⟨PollOutcome.success r, reqs+1, cbs1, dels, resReqs⟩
        | none =>
          match resEnv resReqs with
          | some r => ⟨PollOutcome.success r, reqs+1, cbs1, dels, resReqs+1⟩
          | none =>
            if attempts < 3 then
              pollAux env resEnv hasCb fuel (attempts+1) (reqs+1) (resReqs+1)
                cbs1 (dels ++ [2000])
            else ⟨PollOutcome.failure PollError.resultFetchFailed, reqs+1,
                  cbs1, dels, resReqs+1⟩
      else if st = "failed" then
        if attempts < 3 then
          pollAux env resEnv hasCb fuel (attempts+1) (reqs+1) resReqs cbs1
            (dels ++ [2000])
        else ⟨PollOutcome.failure (PollError.processingFailed m), reqs+1,
              cbs1, dels, resReqs⟩
      else
        pollAux env resEnv hasCb fuel (attempts+1) (reqs+1) resReqs cbs1
          (dels ++ [5000])

/-- Entry point of `TranscriptService.pollForResults`: `maxAttempts = 120`,
`attempts = 0`, no requests issued yet. -/
def pollForResults (env : Nat → StatusResp)
    (resEnv : Nat → Option ProcessingResult) (hasCb : Bool) : PollTrace :=
  pollAux env resEnv hasCb 120 0 0 0 [] []

/-- Outcome of the inline `while (true)` polling loop found (with identical
structure) in `ImageAnalysis.processImage` and in
`DocumentSummarization.processDocument`: the observation fuel ran out with
the loop still running, the loop broke on a completed status, the loop threw
the backend message on a failed status, or the status request itself
errored. -/
inductive InlineOutcome where
  | running
  | completedBreak
  | failedThrow (message : String)
  | errored
deriving DecidableEq

/-- The inline polling loop of `processImage` and `processDocument`.  The
source loop is `while (true)` with a 2000 ms delay and no attempt counter;
the fuel argument here is only the number of iterations we observe, and a
result of `running` means the loop was still polling when observation
stopped.  Returns the outcome and the number of status requests issued. -/
def inlinePoll (env : Nat → StatusResp) : Nat → Nat → InlineOutcome × Nat
  | 0, reqs => (InlineOutcome.running, reqs)
  | fuel+1, reqs =>
    match env reqs with
    | StatusResp.netErr => (InlineOutcome.errored, reqs+1)
    | StatusResp.ok st _ m _ =>
      if st = "completed" then (InlineOutcome.completedBreak, reqs+1)
      else if st = "failed" then (InlineOutcome.failedThrow m, reqs+1)
      else inlinePoll env fuel (reqs+1)

/-- Property of a response: it reports status `processing` (with any
progress, message and inline result). -/
def StatusResp.isProcessing (r : StatusResp) : Prop :=
  ∃ p m res, r = StatusResp.ok "processing" p m res

/-! ## Character level string helpers

Core `String` operations such as `toLower`, `trim`, `endsWith` and `splitOn`
are defined by well-founded recursion over byte positions and do not reduce
inside the kernel, so the embedding works on the underlying character lists
with structurally recursive equivalents. -/

/-- ASCII lower casing of a character sequence, the character level view of
`toLowerCase` (all strings handled by the claims are ASCII). -/
def lowerL (l : List Char) : List Char := l.map Char.toLower

/-- Trimming of leading and trailing whitespace, the character level view of
`String.prototype.trim`. -/
def trimL (l : List Char) : List Char :=
  ((l.dropWhile Char.isWhitespace).reverse.dropWhile Char.isWhitespace).reverse

/-- Character level view of `String.prototype.endsWith`. -/
def endsWithL (l suffix : List Char) : Bool :=
  decide (l.drop (l.length - suffix.length) = suffix)

/-- Character level view of `s.split("\n\n")`: maximal leftmost
non-overlapping occurrences of two consecutive newline characters delimit
the chunks.  The second argument holds the current chunk reversed. -/
def splitTwoNL : List Char → List Char → List String
  | [], cur => [String.mk cur.reverse]
  | [c], cur => [String.mk (c :: cur).reverse]
  | c :: c2 :: rest, cur =>
    if c = Char.ofNat 10 ∧ c2 = Char.ofNat 10 then
      String.mk cur.reverse :: splitTwoNL rest []
    else splitTwoNL (c2 :: rest) (c :: cur)

/-! ## Client side upload validation -/

/-- The fields of a browser `File` object that the validators read. -/
structure JsFile where
  name : String
  type : String
  size : Nat
deriving DecidableEq

/-- Size cap shared by all three uploaders: `50 * 1024 * 1024` bytes. -/
def maxFileSize : Nat := 50 * 1024 * 1024

/-- MIME allow-list of `AudioUpload.validateFile`. -/
def audioValidTypes : List String :=
  ["audio/mp3", "audio/wav", "audio/m4a", "audio/mpeg", "audio/ogg"]

/-- Extension test of `AudioUpload.validateFile`, the case-insensitive
anchored regex on `(mp3|wav|m4a|ogg)`. -/
def audioExtOk (name : String) : Bool :=
  endsWithL (lowerL name.data) ".mp3".data ||
  endsWithL (lowerL name.data) ".wav".data ||
  endsWithL (lowerL name.data) ".m4a".data ||
  endsWithL (lowerL name.data) ".ogg".data

/-- `AudioUpload.validateFile`: reject when neither the MIME type nor the
extension matches, then reject on size, otherwise accept. -/
def validateAudioFile (f : JsFile) : Bool :=
  if !(audioValidTypes.contains f.type) && !(audioExtOk f.name) then false
  else if f.size > maxFileSize then false
  else true

/-- MIME allow-list of `ImageUpload.validateFile`. -/
def imageValidTypes : List String :=
  ["image/jpeg", "image/jpg", "image/png", "image/gif", "image/bmp"]

/-- Extension test of `ImageUpload.validateFile`, the case-insensitive
anchored regex on `(jpg|jpeg|png|gif|bmp)`. -/
def imageExtOk (name : String) : Bool :=
  endsWithL (lowerL name.data) ".jpg".data ||
  endsWithL (lowerL name.data) ".jpeg".data ||
  endsWithL (lowerL name.data) ".png".data ||
  endsWithL (lowerL name.data) ".gif".data ||
  endsWithL (lowerL name.data) ".bmp".data

/-- `ImageUpload.validateFile`. -/
def validateImageFile (f : JsFile) : Bool :=
  if !(imageValidTypes.contains f.type) && !(imageExtOk f.name) then false
  else if f.size > maxFileSize then false
  else true

/-- MIME allow-list of `DocumentUpload.validateFile`. -/
def documentValidTypes : List String :=
  ["application/pdf", "application/msword",
   "application/vnd.openxmlformats-officedocument.wordprocessingml.document",
   "text/plain"]

/-- Extension test of `DocumentUpload.validateFile`: `endsWith` checks on
the lower-cased file name. -/
def documentExtOk (name : String) : Bool :=
  endsWithL (lowerL name.data) ".pdf".data ||
  endsWithL (lowerL name.data) ".doc".data ||
  endsWithL (lowerL name.data) ".docx".data ||
  endsWithL (lowerL name.data) ".txt".data

/-- `DocumentUpload.validateFile`. -/
def validateDocumentFile (f : JsFile) : Bool :=
  if !(documentValidTypes.contains f.type) && !(documentExtOk f.name) then
    false
  else if f.size > maxFileSize then false
  else true

/-- The `handleFile` callback of `AudioUpload`: the file is handed to
`onFileSelect` (which leads to the network upload) only when validation
succeeds; `none` means no network call is made for this file. -/
def handleFileAudio (f : JsFile) : Option JsFile :=
  if validateAudioFile f then some f else none

/-- The `handleFile` callback of `ImageUpload`. -/
def handleFileImage (f : JsFile) : Option JsFile :=
  if validateImageFile f then some f else none

/-- The `handleFile` callback of `DocumentUpload`. -/
def handleFileDocument (f : JsFile) : Option JsFile :=
  if validateDocumentFile f then some f else none

/-! ## DiarizationService -/

/-- Apostrophe character, used inside the bundled phrase patterns. -/
def apos : String := String.singleton (Char.ofNat 39)

/-- Newline character. -/
def newlineChar : Char := Char.ofNat 10

/-- Case-insensitive unanchored containment: the embedding of
`/pattern/i.test(text)` for the literal phrase patterns of
`DiarizationService` (none of them contains a regex metacharacter). -/
def ciContains (text pat : String) : Bool :=
  decide (lowerL pat.data <:+: lowerL text.data)

/-- The service-agent phrase patterns of `DiarizationService`. -/
def customerServicePatterns : List String :=
  ["thank you for calling", "how can I help", "let me check", "I can see",
   "I" ++ apos ++ "ll make sure", "is there anything else"]

/-- The customer phrase patterns of `DiarizationService`. -/
def customerPatterns : List String :=
  ["I" ++ apos ++ "m having an issue", "I placed an order", "can you tell me",
   "that" ++ apos ++ "s very generous", "thank you so much",
   "no, that covers everything"]

/-- Embedding of the tail `\s*(.+)` of the speaker-label regex, applied to
the characters following the colon.  The greedy whitespace run is consumed
first; `(.+)` then matches the maximal run of non-newline characters.  When
everything after the colon is whitespace, backtracking lets `(.+)` match a
single whitespace character provided it is not a newline, choosing the
rightmost such position; with no such character the whole regex fails. -/
def tailMatch (rem : List Char) : Option (List Char) :=
  let rest := rem.dropWhile Char.isWhitespace
  if rest = [] then
    match rem.reverse.dropWhile (fun c => c = newlineChar) with
    | [] => none
    | c :: _ => some [c]
  else some (rest.takeWhile (fun c => c != newlineChar))

/-- Embedding of `text.match(/^(Speaker \d+):\s*(.+)/)` from
`DiarizationService.determineSpeaker`: requires the literal prefix
`Speaker` and a space, one or more digits, a colon, and then a nonempty
remainder as described by `tailMatch`.  Returns the captured label and the
captured cleaned text. -/
def matchSpeakerLabel (text : String) : Option (String × String) :=
  let cs := text.toList
  if cs.take 8 = "Speaker ".toList then
    let rest := cs.drop 8
    let digits := rest.takeWhile Char.isDigit
    if digits = [] then none
    else
      match rest.drop digits.length with
      | ':' :: rem =>
        match tailMatch rem with
        | some cleaned =>
          some ("Speaker " ++ String.mk digits, String.mk cleaned)
        | none => none
      | _ => none
  else none

/-- `DiarizationService.determineSpeaker`: explicit label first, then the
two phrase-pattern lists, then alternation by segment index parity.
Returns the speaker and the cleaned text. -/
def determineSpeaker (text : String) (index : Nat) : String × String :=
  match matchSpeakerLabel text with
  | some (sp, cleaned) => (sp, cleaned)
  | none =>
    let isCustomerService :=
      customerServicePatterns.any (fun p => ciContains text p)
    let isCustomer := customerPatterns.any (fun p => ciContains text p)
    if isCustomerService then ("Speaker 1", text)
    else if isCustomer then ("Speaker 2", text)
    else (if index % 2 = 0 then "Speaker 1" else "Speaker 2", text)

/-- Left-pad a numeral to two digits, as the 2-digit time format does. -/
def pad2 (n : Nat) : String :=
  if n < 10 then "0" ++ toString n else toString n

/-- `DiarizationService.generateTimestamp`: base time 10:00:00 plus 15
seconds per segment index, formatted HH:MM:SS on a 24 hour clock. -/
def generateTimestamp (index : Nat) : String :=
  let total := 10 * 3600 + index * 15
  pad2 ((total / 3600) % 24) ++ ":" ++ pad2 ((total % 3600) / 60) ++ ":" ++
    pad2 (total % 60)

/-- One element of the diarization output, from the `DiarizedSegment`
interface of `DiarizationService`. -/
structure DiarizedSegment where
  speaker : String
  text : String
  timestamp : String
deriving DecidableEq

/-- `DiarizationService.parseTranscriptSegments`: split on blank-line
boundaries, drop whitespace-only segments, then pair each trimmed segment
with its index in the filtered list. -/
def parseTranscriptSegments (transcript : String) : List (String × Nat) :=
  (((splitTwoNL transcript.data []).filter
      (fun l => 0 < (trimL l.data).length)).enum).map
    (fun x => (String.mk (trimL x.2.data), x.1))

/-- `DiarizationService.identifySpeakers`. -/
def identifySpeakers (segments : List (String × Nat)) : List DiarizedSegment :=
  segments.map (fun s =>
    let info := determineSpeaker s.1 s.2
    ⟨info.1, info.2, generateTimestamp s.2⟩)

/-- `DiarizationService.diarizeTranscript` (the simulated delay and the
never-triggered catch clause are immaterial to the returned value). -/
def diarizeTranscript (transcript : String) : List DiarizedSegment :=
  identifySpeakers (parseTranscriptSegments transcript)

/-! ## TranscriptService.generateSummary -/

/-- Sentence terminator characters of the split regex `[.!?]+`. -/
def isTermChar (c : Char) : Bool := c = '.' || c = '!' || c = '?'

/-- Worker for the JavaScript split on `[.!?]+`: maximal runs of terminator
characters delimit chunks; a leading run yields a leading empty chunk and a
trailing run yields a trailing empty chunk.  The accumulator holds the
current chunk reversed. -/
def splitTermAux : List Char → List Char → Bool → List String
  | [], cur, _ => [String.mk cur.reverse]
  | c :: cs, cur, inDelim =>
    if isTermChar c then
      if inDelim then splitTermAux cs cur true
      else String.mk cur.reverse :: splitTermAux cs [] true
    else splitTermAux cs (c :: cur) false

/-- Embedding of `transcript.split(/[.!?]+/)`. -/
def jsSplitTerm (s : String) : List String := splitTermAux s.toList [] false

/-- The filtered sentence list of `generateSummary`: chunks that are
nonempty after trimming. -/
def sentencesOf (transcript : String) : List String :=
  (jsSplitTerm transcript).filter (fun s => 0 < (trimL s.data).length)

/-- `TranscriptService.generateSummary`: with at most 3 sentences return the
transcript unchanged, otherwise join the first, middle and last sentence
with a period separator and a final period.  The catch clause of the source
is unreachable because no step of this computation throws. -/
def generateSummary (transcript : String) : String :=
  let sentences := sentencesOf transcript
  if sentences.length ≤ 3 then transcript
  else
    String.intercalate ". "
      [sentences.headD "", sentences.getD (sentences.length / 2) "",
       sentences.getD (sentences.length - 1) ""] ++ "."

/-! ## Spec side allow-list predicates (refinement side of claim C6)

The following three predicates state the documented allow-lists of section 6
of the specification, grouped by documented format: each of the four (or
five) formats of a skill is admitted either through one of its standard MIME
type names or through its file extension.  They are written from the words
of the specification and are compared against the validators, which are
transcribed from the source. -/

/-- Documented audio allow-list: mp3, wav, m4a, ogg (by MIME name or
extension), where mp3 is denoted by the MIME names audio/mp3 and
audio/mpeg. -/
def audioAllowListed (f : JsFile) : Prop :=
  (f.type = "audio/mp3" ∨ f.type = "audio/mpeg" ∨
    endsWithL (lowerL f.name.data) ".mp3".data = true) ∨
  (f.type = "audio/wav" ∨ endsWithL (lowerL f.name.data) ".wav".data = true) ∨
  (f.type = "audio/m4a" ∨ endsWithL (lowerL f.name.data) ".m4a".data = true) ∨
  (f.type = "audio/ogg" ∨ endsWithL (lowerL f.name.data) ".ogg".data = true)

/-- Documented image allow-list: jpeg, png, gif, bmp (by MIME name or
extension), where jpeg is denoted by the MIME names image/jpeg and image/jpg
and by the extensions .jpg and .jpeg. -/
def imageAllowListed (f : JsFile) : Prop :=
  (f.type = "image/jpeg" ∨ f.type = "image/jpg" ∨
    endsWithL (lowerL f.name.data) ".jpg".data = true ∨
    endsWithL (lowerL f.name.data) ".jpeg".data = true) ∨
  (f.type = "image/png" ∨ endsWithL (lowerL f.name.data) ".png".data = true) ∨
  (f.type = "image/gif" ∨ endsWithL (lowerL f.name.data) ".gif".data = true) ∨
  (f.type = "image/bmp" ∨ endsWithL (lowerL f.name.data) ".bmp".data = true)

/-- Documented document allow-list: pdf, doc, docx, txt (by MIME name or
extension). -/
def documentAllowListed (f : JsFile) : Prop :=
  (f.type = "application/pdf" ∨
    endsWithL (lowerL f.name.data) ".pdf".data = true) ∨
  (f.type = "application/msword" ∨
    endsWithL (lowerL f.name.data) ".doc".data = true) ∨
  (f.type =
      "application/vnd.openxmlformats-officedocument.wordprocessingml.document" ∨
    endsWithL (lowerL f.name.data) ".docx".data = true) ∨
  (f.type = "text/plain" ∨ endsWithL (lowerL f.name.data) ".txt".data = true)

/-! ## Helper lemmas about the poll loops -/

/-- Unfolding of one loop iteration on a processing response: the callback
fires, the 5000 ms delay is awaited, the attempt counter advances. -/
theorem pollAux_processing_step (env : Nat → StatusResp)
    (resEnv : Nat → Option ProcessingResult) (hasCb : Bool)
    (fuel attempts reqs resReqs : Nat) (cbs : List (Nat × String))
    (dels : List Nat) (p : Nat) (m : String) (r : Option ProcessingResult)
    (h : env reqs = StatusResp.ok "processing" p m r) :
    pollAux env resEnv hasCb (fuel+1) attempts reqs resReqs cbs dels =
      pollAux env resEnv hasCb fuel (attempts+1) (reqs+1) resReqs
        (if hasCb then cbs ++ [(p, m)] else cbs) (dels ++ [5000]) := by
  simp [pollAux, h]

/-- Unfolding of one loop iteration on a failed response while the attempt
counter is still below 3: the throw is caught and retried after 2000 ms. -/
theorem pollAux_failed_retry_step (env : Nat → StatusResp)
    (resEnv : Nat → Option ProcessingResult) (hasCb : Bool)
    (fuel attempts reqs resReqs : Nat) (cbs : List (Nat × String))
    (dels : List Nat) (p : Nat) (m : String) (r : Option ProcessingResult)
    (h : env reqs = StatusResp.ok "failed" p m r) (ha : attempts < 3) :
    pollAux env resEnv hasCb (fuel+1) attempts reqs resReqs cbs dels =
      pollAux env resEnv hasCb fuel (attempts+1) (reqs+1) resReqs
        (if hasCb then cbs ++ [(p, m)] else cbs) (dels ++ [2000]) := by
  simp [pollAux, h, ha]

/-- Unfolding of one loop iteration on a failed response once the attempt
counter has reached 3: the error carrying the backend message propagates. -/
theorem pollAux_failed_throw_step (env : Nat → StatusResp)
    (resEnv : Nat → Option ProcessingResult) (hasCb : Bool)
    (fuel attempts reqs resReqs : Nat) (cbs : List (Nat × String))
    (dels : List Nat) (p : Nat) (m : String) (r : Option ProcessingResult)
    (h : env reqs = StatusResp.ok "failed" p m r) (ha : ¬ attempts < 3) :
    pollAux env resEnv hasCb (fuel+1) attempts reqs resReqs cbs dels =
      ⟨PollOutcome.failure (PollError.processingFailed m), reqs+1,
       (if hasCb then cbs ++ [(p, m)] else cbs), dels, resReqs⟩ := by
  simp [pollAux, h, ha]

/-- On an all-processing response sequence the loop spends its whole fuel,
issues one request per iteration and ends in the timeout error. -/
theorem pollAux_processing_run (env : Nat → StatusResp)
    (resEnv : Nat → Option ProcessingResult) (hasCb : Bool) :
    ∀ fuel attempts reqs resReqs cbs dels,
      (∀ i, i < fuel → (env (reqs + i)).isProcessing) →
      (pollAux env resEnv hasCb fuel attempts reqs resReqs cbs dels).outcome =
        PollOutcome.failure PollError.timeout ∧
      (pollAux env resEnv hasCb fuel attempts reqs resReqs cbs dels).reqs =
        reqs + fuel := by
  intro fuel
  induction fuel with
  | zero => intro attempts reqs resReqs cbs dels _; exact ⟨rfl, rfl⟩
  | succ n ih =>
    intro attempts reqs resReqs cbs dels h
    obtain ⟨p, m, r, hr⟩ := h 0 (Nat.succ_pos n)
    rw [Nat.add_zero] at hr
    rw [pollAux_processing_step env resEnv hasCb n attempts reqs resReqs cbs
      dels p m r hr]
    obtain ⟨h1, h2⟩ := ih (attempts+1) (reqs+1) resReqs
      (if hasCb then cbs ++ [(p, m)] else cbs) (dels ++ [5000])
      (fun i hi => by
        have := h (i+1) (by omega)
        rwa [show reqs + (i+1) = reqs + 1 + i by omega] at this)
    exact ⟨h1, by rw [h2]; omega⟩

/-- Whatever the responses are, the poll loop issues at most one status
request per unit of fuel. -/
theorem pollAux_reqs_le (env : Nat → StatusResp)
    (resEnv : Nat → Option ProcessingResult) (hasCb : Bool) :
    ∀ fuel attempts reqs resReqs cbs dels,
      (pollAux env resEnv hasCb fuel attempts reqs resReqs cbs dels).reqs ≤
        reqs + fuel := by
  intro fuel
  induction fuel with
  | zero => intro _ reqs _ _ _; simp [pollAux]
  | succ n ih =>
    intro attempts reqs resReqs cbs dels
    rw [pollAux]
    split
    · split
      · exact (ih _ _ _ _ _).trans (by omega)
      · dsimp only; omega
    · repeat' split
      all_goals first
        | exact (ih _ _ _ _ _).trans (by omega)
        | (dsimp only; omega)

/-- On an all-processing response sequence the inline loop never stops: after
any number of observed iterations it is still running, one request per
iteration. -/
theorem inlinePoll_processing_run (env : Nat → StatusResp) :
    ∀ fuel reqs, (∀ i, (env i).isProcessing) →
      inlinePoll env fuel reqs = (InlineOutcome.running, reqs + fuel) := by
  intro fuel
  induction fuel with
  | zero => intro reqs _; rfl
  | succ n ih =>
    intro reqs h
    obtain ⟨p, m, r, hr⟩ := h reqs
    have step : inlinePoll env (n+1) reqs = inlinePoll env n (reqs+1) := by
      simp [inlinePoll, hr]
    rw [step, ih (reqs+1) h]
    exact congrArg _ (by omega)

/-! ## Claim C3 -/

/-- C3: for every status sequence of 120 consecutive processing responses,
`TranscriptService.pollForResults` issues exactly 120 status requests (no
request number 121) and then fails with the timeout error. -/
theorem pollForResults_processing_timeout (env : Nat → StatusResp)
    (resEnv : Nat → Option ProcessingResult) (hasCb : Bool)
    (h : ∀ n, n < 120 → (env n).isProcessing) :
    (pollForResults env resEnv hasCb).outcome =
      PollOutcome.failure PollError.timeout ∧
    (pollForResults env resEnv hasCb).reqs = 120 := by
  have := pollAux_processing_run env resEnv hasCb 120 0 0 0 [] []
    (fun i hi => by simpa using h i hi)
  simpa [pollForResults] using this

/-- Witness for C3 at the constant processing response sequence. -/
theorem pollForResults_processing_timeout_witness :
    (pollForResults (fun _ => StatusResp.ok "processing" 42 "transcribing" none)
      (fun _ => none) true).outcome = PollOutcome.failure PollError.timeout ∧
    (pollForResults (fun _ => StatusResp.ok "processing" 42 "transcribing" none)
      (fun _ => none) true).reqs = 120 :=
  pollForResults_processing_timeout _ _ _
    (fun _ _ => ⟨42, "transcribing", none, rfl⟩)

/-! ## Claim C4 -/

/-- Counterexample to C4 as stated: the inline poll loop of
`ImageAnalysis.processImage` and `DocumentSummarization.processDocument` has
no attempt bound.  On an all-processing status sequence it has issued 1000
status requests after 1000 iterations and is still polling, already past any
bound the application documents (the only stated bound is 120). -/
theorem inlinePoll_unbounded_counterexample :
    inlinePoll (fun _ => StatusResp.ok "processing" 50 "processing image" none)
      1000 0 = (InlineOutcome.running, 1000) :=
  (inlinePoll_processing_run _ 1000 0
    (fun _ => ⟨50, "processing image", none, rfl⟩)).trans (by norm_num)

/-- C4 amended: only `TranscriptService.pollForResults` has a bounded
attempt budget: on every response sequence it issues at most 120 status
requests, and on an all-processing sequence it issues exactly 120 and times
out.  The inline poll loops of `ImageAnalysis.processImage` and
`DocumentSummarization.processDocument` have no attempt bound: on an
all-processing sequence they are still polling after every number of
iterations, one status request per iteration. -/
theorem poll_loops_bound_contrast (env : Nat → StatusResp)
    (resEnv : Nat → Option ProcessingResult) (hasCb : Bool)
    (h : ∀ n, (env n).isProcessing) :
    (∀ fuel, inlinePoll env fuel 0 = (InlineOutcome.running, fuel)) ∧
    (∀ env2 resEnv2 hasCb2,
      (pollForResults env2 resEnv2 hasCb2).reqs ≤ 120) ∧
    ((pollForResults env resEnv hasCb).outcome =
        PollOutcome.failure PollError.timeout ∧
      (pollForResults env resEnv hasCb).reqs = 120) := by
  refine ⟨?_, ?_, ?_⟩
  · intro fuel
    have := inlinePoll_processing_run env fuel 0 h
    simpa using this
  · intro env2 resEnv2 hasCb2
    have := pollAux_reqs_le env2 resEnv2 hasCb2 120 0 0 0 [] []
    simpa [pollForResults] using this
  · have := pollAux_processing_run env resEnv hasCb 120 0 0 0 [] []
      (fun i _ => by simpa using h i)
    simpa [pollForResults] using this

/-- Witness for the amended C4 at the constant processing sequence. -/
theorem poll_loops_bound_contrast_witness :
    inlinePoll (fun _ => StatusResp.ok "processing" 7 "w" none) 121 0 =
      (InlineOutcome.running, 121) ∧
    (pollForResults (fun _ => StatusResp.ok "processing" 7 "w" none)
      (fun _ => none) true).reqs = 120 := by
  have := poll_loops_bound_contrast
    (fun _ => StatusResp.ok "processing" 7 "w" none) (fun _ => none) true
    (fun _ => ⟨7, "w", none, rfl⟩)
  exact ⟨this.1 121, this.2.2.2⟩

/-! ## Claim C5 -/

/-- C5: on the status sequence pending, pending, completed (with an inline
result) and with a progress callback supplied, the poller invokes exactly
one callback per pending response, carrying that response progress and
message (the two intermediate callbacks), returns the result with the third
status request and issues no further request.  The full trace also records
the third callback invocation that accompanies the completed response and
the two 5000 ms inter-poll delays. -/
theorem pollForResults_pending_pending_completed (p1 p2 p3 : Nat)
    (m1 m2 m3 : String) (r : ProcessingResult)
    (resEnv : Nat → Option ProcessingResult) :
    pollForResults
      (fun n =>
        [StatusResp.ok "pending" p1 m1 none, StatusResp.ok "pending" p2 m2 none,
         StatusResp.ok "completed" p3 m3 (some r)].getD n StatusResp.netErr)
      resEnv true =
    ⟨PollOutcome.success r, 3, [(p1, m1), (p2, m2), (p3, m3)], [5000, 5000],
     0⟩ :=
  rfl

/-! ## Claim C1 -/

set_option maxRecDepth 10000 in
/-- Counterexample to C1 as stated: a failed response with message bad audio
observed while the attempt counter is below 3 is caught by the retry clause
and retried instead of failing.  Here the very first response is failed with
message bad audio and every later response is processing; the poller ends in
the timeout error, not in a processing-failed error carrying bad audio. -/
theorem pollForResults_failed_early_counterexample :
    (pollForResults
      (fun n => if n = 0 then StatusResp.ok "failed" 0 "bad audio" none
                else StatusResp.ok "processing" 50 "working" none)
      (fun _ => none) true).outcome = PollOutcome.failure PollError.timeout ∧
    (pollForResults
      (fun n => if n = 0 then StatusResp.ok "failed" 0 "bad audio" none
                else StatusResp.ok "processing" 50 "working" none)
      (fun _ => none) true).outcome ≠
      PollOutcome.failure (PollError.processingFailed "bad audio") := by
  constructor
  · decide
  · decide

/-- C1 amended: when every status response is failed with message bad audio,
the poller fails with the processing-failed error carrying exactly the
backend message bad audio, after 4 status requests: the first three failed
responses are swallowed by the retry clause (which shares the attempt
counter) and the fourth propagates.  A failed response is propagated
immediately only once the attempt counter has reached 3. -/
theorem pollForResults_persistent_failed (env : Nat → StatusResp)
    (resEnv : Nat → Option ProcessingResult) (hasCb : Bool)
    (h : ∀ n, ∃ p r, env n = StatusResp.ok "failed" p "bad audio" r) :
    (pollForResults env resEnv hasCb).outcome =
      PollOutcome.failure (PollError.processingFailed "bad audio") ∧
    (pollForResults env resEnv hasCb).reqs = 4 := by
  obtain ⟨p0, r0, h0⟩ := h 0
  obtain ⟨p1, r1, h1⟩ := h 1
  obtain ⟨p2, r2, h2⟩ := h 2
  obtain ⟨p3, r3, h3⟩ := h 3
  unfold pollForResults
  rw [show (120 : Nat) = 119 + 1 from rfl,
    pollAux_failed_retry_step env resEnv hasCb 119 0 0 0 [] [] p0 "bad audio"
      r0 h0 (by omega)]
  norm_num
  rw [show (119 : Nat) = 118 + 1 from rfl,
    pollAux_failed_retry_step env resEnv hasCb 118 1 1 0 _ _ p1 "bad audio"
      r1 h1 (by omega)]
  norm_num
  rw [show (118 : Nat) = 117 + 1 from rfl,
    pollAux_failed_retry_step env resEnv hasCb 117 2 2 0 _ _ p2 "bad audio"
      r2 h2 (by omega)]
  norm_num
  rw [show (117 : Nat) = 116 + 1 from rfl,
    pollAux_failed_throw_step env resEnv hasCb 116 3 3 0 _ _ p3 "bad audio"
      r3 h3 (by omega)]
  exact ⟨rfl, rfl⟩

/-- Witness for the amended C1 at the constant failed response sequence. -/
theorem pollForResults_persistent_failed_witness :
    (pollForResults (fun _ => StatusResp.ok "failed" 7 "bad audio" none)
      (fun _ => none) true).outcome =
      PollOutcome.failure (PollError.processingFailed "bad audio") ∧
    (pollForResults (fun _ => StatusResp.ok "failed" 7 "bad audio" none)
      (fun _ => none) true).reqs = 4 :=
  pollForResults_persistent_failed _ _ _ (fun _ => ⟨7, none, rfl⟩)

/-! ## Claim C2 -/

set_option maxRecDepth 10000 in
/-- Counterexample to C2 as stated: a network failure that occurs after 3
successful polls is propagated immediately, with no retry at all, because
the retry clause tests the shared attempt counter (which already counts the
successful polls) rather than a separate retry counter.  The trace shows 4
status requests, only the three 5000 ms inter-poll delays (no 2000 ms retry
delay) and the propagated status-check error. -/
theorem pollForResults_network_failure_counterexample :
    pollForResults
      (fun n => if n < 3 then StatusResp.ok "processing" 50 "w" none
                else StatusResp.netErr)
      (fun _ => none) true =
    ⟨PollOutcome.failure PollError.statusCheckFailed, 4,
     [(50, "w"), (50, "w"), (50, "w")], [5000, 5000, 5000], 0⟩ := by
  decide

/-- C2 amended: a transient network failure during polling is retried, after
a 2000 ms delay, exactly when the shared attempt counter (which also counts
earlier successful polls and earlier retries) is still below 3; otherwise
the error propagates at once.  Hence at most 3 retries happen in one run,
and fewer when successful polls preceded the failure. -/
theorem pollAux_netErr_retry_policy (env : Nat → StatusResp)
    (resEnv : Nat → Option ProcessingResult) (hasCb : Bool)
    (fuel attempts reqs resReqs : Nat) (cbs : List (Nat × String))
    (dels : List Nat) (h : env reqs = StatusResp.netErr) :
    pollAux env resEnv hasCb (fuel+1) attempts reqs resReqs cbs dels =
      if attempts < 3 then
        pollAux env resEnv hasCb fuel (attempts+1) (reqs+1) resReqs cbs
          (dels ++ [2000])
      else ⟨PollOutcome.failure PollError.statusCheckFailed, reqs+1, cbs,
            dels, resReqs⟩ := by
  simp [pollAux, h]

/-- Witness for the amended C2: a network error at attempt counter 5 is
propagated immediately. -/
theorem pollAux_netErr_retry_policy_witness :
    pollAux (fun _ => StatusResp.netErr) (fun _ => none) true (10+1) 5 0 0
      [] [] =
      ⟨PollOutcome.failure PollError.statusCheckFailed, 1, [], [], 0⟩ := by
  rw [pollAux_netErr_retry_policy (fun _ => StatusResp.netErr) (fun _ => none)
    true 10 5 0 0 [] [] rfl]
  norm_num

/-! ## Claim C6 -/

/-- Shape of all three validators: reject when neither the type check nor
the extension check passes, then reject on size, otherwise accept. -/
theorem validate_iff (c1 ext : Bool) (sz mx : Nat) :
    ((if !c1 && !ext then false else if sz > mx then false else (true : Bool))
      = true)
    ↔ ((c1 = true ∨ ext = true) ∧ sz ≤ mx) := by
  by_cases h1 : (!c1 && !ext) = true
  · rw [if_pos h1]
    simp only [Bool.and_eq_true, Bool.not_eq_true'] at h1
    simp [h1.1, h1.2]
  · rw [if_neg h1]
    simp only [Bool.and_eq_true, Bool.not_eq_true'] at h1
    by_cases h2 : sz > mx
    · rw [if_pos h2]
      constructor
      · intro hx; simp at hx
      · intro hx; omega
    · rw [if_neg h2]
      constructor
      · intro _
        refine ⟨?_, by omega⟩
        rcases Bool.eq_false_or_eq_true c1 with hc | hc
        · exact Or.inl hc
        · rcases Bool.eq_false_or_eq_true ext with he | he
          · exact Or.inr he
          · exact absurd ⟨hc, he⟩ h1
      · intro _; rfl

set_option maxHeartbeats 2000000 in
/-- C6: each uploader accepts a file exactly when its MIME type or extension
is in the documented allow-list of that skill and its size is at most 50MB,
and every file over 50MB is rejected before the file is handed to the
upload callback (hence before any network call). -/
theorem upload_validation_spec (f : JsFile) :
    (validateAudioFile f = true ↔ (audioAllowListed f ∧ f.size ≤ maxFileSize)) ∧
    (validateImageFile f = true ↔ (imageAllowListed f ∧ f.size ≤ maxFileSize)) ∧
    (validateDocumentFile f = true ↔
      (documentAllowListed f ∧ f.size ≤ maxFileSize)) ∧
    (maxFileSize < f.size →
      handleFileAudio f = none ∧ handleFileImage f = none ∧
      handleFileDocument f = none) := by
  have hva : validateAudioFile f = true ↔
      (audioAllowListed f ∧ f.size ≤ maxFileSize) := by
    unfold validateAudioFile
    rw [validate_iff]
    simp only [audioValidTypes, audioExtOk, audioAllowListed,
      List.contains_cons, List.contains_nil, Bool.or_eq_true, beq_iff_eq,
      or_false]
    tauto
  have hvi : validateImageFile f = true ↔
      (imageAllowListed f ∧ f.size ≤ maxFileSize) := by
    unfold validateImageFile
    rw [validate_iff]
    simp only [imageValidTypes, imageExtOk, imageAllowListed,
      List.contains_cons, List.contains_nil, Bool.or_eq_true, beq_iff_eq,
      or_false]
    tauto
  have hvd : validateDocumentFile f = true ↔
      (documentAllowListed f ∧ f.size ≤ maxFileSize) := by
    unfold validateDocumentFile
    rw [validate_iff]
    simp only [documentValidTypes, documentExtOk, documentAllowListed,
      List.contains_cons, List.contains_nil, Bool.or_eq_true, beq_iff_eq,
      or_false]
    tauto
  refine ⟨hva, hvi, hvd, ?_⟩
  intro hs
  have na : validateAudioFile f = false := by
    rcases Bool.eq_false_or_eq_true (validateAudioFile f) with h | h
    · exact absurd (hva.mp h).2 (by omega)
    · exact h
  have ni : validateImageFile f = false := by
    rcases Bool.eq_false_or_eq_true (validateImageFile f) with h | h
    · exact absurd (hvi.mp h).2 (by omega)
    · exact h
  have nd : validateDocumentFile f = false := by
    rcases Bool.eq_false_or_eq_true (validateDocumentFile f) with h | h
    · exact absurd (hvd.mp h).2 (by omega)
    · exact h
  exact ⟨by simp [handleFileAudio, na], by simp [handleFileImage, ni],
    by simp [handleFileDocument, nd]⟩

/-- Witness for C6: a 50MB-plus file is not handed to any upload callback. -/
theorem upload_validation_spec_witness :
    handleFileAudio ⟨"big.mp3", "audio/mp3", maxFileSize + 1⟩ = none ∧
    handleFileImage ⟨"big.mp3", "audio/mp3", maxFileSize + 1⟩ = none ∧
    handleFileDocument ⟨"big.mp3", "audio/mp3", maxFileSize + 1⟩ = none :=
  (upload_validation_spec ⟨"big.mp3", "audio/mp3", maxFileSize + 1⟩).2.2.2
    (Nat.lt_succ_self maxFileSize)

/-! ## Claim C10 -/

/-- C10: `generateSummary` returns the transcript unchanged when the split
on sentence terminators yields at most 3 sentences that are nonempty after
trimming, and otherwise returns the first, middle (index half the length,
rounded down) and last sentence joined with a period separator and a final
period. -/
theorem generateSummary_spec (t : String) :
    ((sentencesOf t).length ≤ 3 → generateSummary t = t) ∧
    (3 < (sentencesOf t).length →
      generateSummary t =
        String.intercalate ". "
          [(sentencesOf t).headD "",
           (sentencesOf t).getD ((sentencesOf t).length / 2) "",
           (sentencesOf t).getD ((sentencesOf t).length - 1) ""] ++ ".") := by
  unfold generateSummary
  constructor
  · intro h; rw [if_pos h]
  · intro h; rw [if_neg (by omega)]

/-- Witness for C10 on a four-sentence and a three-sentence transcript. -/
theorem generateSummary_spec_witness :
    generateSummary "A. B! C? D." = "A.  C.  D." ∧
    generateSummary "one. two. three." = "one. two. three." :=
  ⟨((generateSummary_spec "A. B! C? D.").2 (by decide)).trans (by decide),
   (generateSummary_spec "one. two. three.").1 (by decide)⟩

/-! ## Claim C8 -/

/-- C8: a segment with no explicit speaker label that matches neither the
service-agent phrase patterns nor the customer phrase patterns is assigned
its speaker by segment index parity: even index gives Speaker 1, odd index
gives Speaker 2, and the text is returned unchanged. -/
theorem determineSpeaker_parity (text : String) (index : Nat)
    (h1 : matchSpeakerLabel text = none)
    (h2 : customerServicePatterns.any (fun p => ciContains text p) = false)
    (h3 : customerPatterns.any (fun p => ciContains text p) = false) :
    determineSpeaker text index =
      ((if index % 2 = 0 then "Speaker 1" else "Speaker 2"), text) := by
  simp [determineSpeaker, h1, h2, h3]

/-- Witness for C8: a pattern-free segment alternates by parity. -/
theorem determineSpeaker_parity_witness :
    determineSpeaker "zzz" 0 = ("Speaker 1", "zzz") ∧
    determineSpeaker "zzz" 1 = ("Speaker 2", "zzz") :=
  ⟨(determineSpeaker_parity "zzz" 0 (by decide) (by decide) (by decide)).trans
      (by norm_num),
   (determineSpeaker_parity "zzz" 1 (by decide) (by decide) (by decide)).trans
      (by norm_num)⟩

/-! ## Claim C7 -/

/-- Counterexample to C7 as stated: the segment consisting of exactly the
label Speaker 2 and a colon begins with an explicit Speaker 2 prefix, but
the label regex requires at least one character after the colon, so the
match fails, the phrase heuristics find nothing, and index parity assigns
Speaker 1 with the text returned unstripped. -/
theorem determineSpeaker_bare_label_counterexample :
    diarizeTranscript "Speaker 2:" =
      [⟨"Speaker 1", "Speaker 2:", "10:00:00"⟩] ∧
    ("Speaker 1" : String) ≠ "Speaker 2" := by
  constructor
  · decide
  · decide

/-- Computation of the speaker label match on a text carrying the Speaker 1
prefix. -/
theorem matchSpeakerLabel_d1 (rem : List Char) :
    matchSpeakerLabel ("Speaker 1:" ++ String.mk rem) =
      (tailMatch rem).map (fun cl => ("Speaker 1", String.mk cl)) := by
  cases h : tailMatch rem with
  | none => simp [matchSpeakerLabel, h]
  | some cl => simp [matchSpeakerLabel, h]

/-- Computation of the speaker label match on a text carrying the Speaker 2
prefix. -/
theorem matchSpeakerLabel_d2 (rem : List Char) :
    matchSpeakerLabel ("Speaker 2:" ++ String.mk rem) =
      (tailMatch rem).map (fun cl => ("Speaker 2", String.mk cl)) := by
  cases h : tailMatch rem with
  | none => simp [matchSpeakerLabel, h]
  | some cl => simp [matchSpeakerLabel, h]

/-- The regex tail on a remainder holding at least one non-whitespace
character: leading whitespace is skipped, then the maximal run of
non-newline characters is captured. -/
theorem tailMatch_of_nonblank (rem : List Char)
    (h : rem.dropWhile Char.isWhitespace ≠ []) :
    tailMatch rem =
      some ((rem.dropWhile Char.isWhitespace).takeWhile
        (fun c => c != newlineChar)) := by
  unfold tailMatch
  rw [if_neg h]

/-- C7 amended: for every segment that begins with the explicit prefix
Speaker 1 or Speaker 2 followed by a colon and at least one non-whitespace
character, the diarizer returns that label verbatim, and returns as text the
remainder after the colon with the leading whitespace removed and truncated
at the first newline (for a single-line remainder this is the remainder
unchanged after the whitespace).  A segment consisting of the bare label
with nothing after the colon instead falls through to the phrase and parity
heuristics. -/
theorem determineSpeaker_labeled_segment (d : String) (rem : List Char)
    (index : Nat) (hd : d = "1" ∨ d = "2")
    (h : rem.dropWhile Char.isWhitespace ≠ []) :
    determineSpeaker ("Speaker " ++ d ++ ":" ++ String.mk rem) index =
      ("Speaker " ++ d,
       String.mk ((rem.dropWhile Char.isWhitespace).takeWhile
         (fun c => c != newlineChar))) := by
  rcases hd with rfl | rfl
  · show determineSpeaker ("Speaker 1:" ++ String.mk rem) index = _
    unfold determineSpeaker
    rw [matchSpeakerLabel_d1, tailMatch_of_nonblank rem h]
    rfl
  · show determineSpeaker ("Speaker 2:" ++ String.mk rem) index = _
    unfold determineSpeaker
    rw [matchSpeakerLabel_d2, tailMatch_of_nonblank rem h]
    rfl

/-- Witness for the amended C7 on a labeled segment with leading blank. -/
theorem determineSpeaker_labeled_segment_witness :
    determineSpeaker ("Speaker " ++ "2" ++ ":" ++ String.mk [' ', 'h', 'i'])
      7 = ("Speaker " ++ "2", String.mk ['h', 'i']) :=
  (determineSpeaker_labeled_segment "2" [' ', 'h', 'i'] 7 (Or.inr rfl)
    (by decide)).trans (by decide)

/-! ## Claim C9 -/

/-- A successful speaker label match always produces the word Speaker, a
space and the nonempty digit string captured from the segment. -/
theorem matchSpeakerLabel_shape {t : String} {sp cl : String}
    (h : matchSpeakerLabel t = some (sp, cl)) :
    ∃ ds : List Char, ds ≠ [] ∧ (∀ c ∈ ds, c.isDigit = true) ∧
      sp = "Speaker " ++ String.mk ds := by
  unfold matchSpeakerLabel at h
  simp only [] at h
  split at h
  · split at h
    · exact absurd h (by simp)
    · split at h
      · split at h
        · simp only [Option.some.injEq, Prod.mk.injEq] at h
          refine ⟨List.takeWhile Char.isDigit (List.drop 8 t.toList), ?_, ?_,
            h.1.symm⟩
          · assumption
          · intro c hc
            exact List.mem_takeWhile_imp hc
        · exact absurd h (by simp)
      · exact absurd h (by simp)
  · exact absurd h (by simp)

/-- Counterexample to C9 as stated: the label regex accepts any digit
sequence, so a transcript segment labeled Speaker 3 yields the speaker
Speaker 3, which is neither Speaker 1 nor Speaker 2. -/
theorem diarize_speaker_domain_counterexample :
    (diarizeTranscript "Speaker 3: hello").map (fun s => s.speaker) =
      ["Speaker 3"] ∧
    ¬(("Speaker 3" : String) = "Speaker 1" ∨
      ("Speaker 3" : String) = "Speaker 2") := by
  constructor
  · decide
  · decide

/-- C9 amended: every segment returned by `diarizeTranscript` has as its
speaker either Speaker 1, or Speaker 2, or the verbatim explicit label of
the segment, which is the word Speaker followed by a space and a nonempty
digit string. -/
theorem diarize_speaker_domain (t : String) (seg : DiarizedSegment)
    (hmem : seg ∈ diarizeTranscript t) :
    seg.speaker = "Speaker 1" ∨ seg.speaker = "Speaker 2" ∨
    ∃ ds : List Char, ds ≠ [] ∧ (∀ c ∈ ds, c.isDigit = true) ∧
      seg.speaker = "Speaker " ++ String.mk ds := by
  unfold diarizeTranscript identifySpeakers at hmem
  rw [List.mem_map] at hmem
  obtain ⟨⟨text, idx⟩, -, rfl⟩ := hmem
  show (determineSpeaker text idx).1 = "Speaker 1" ∨ _ ∨ _
  unfold determineSpeaker
  cases hm : matchSpeakerLabel text with
  | none =>
    dsimp only
    split_ifs <;> simp
  | some pr =>
    obtain ⟨sp, cl⟩ := pr
    exact Or.inr (Or.inr (matchSpeakerLabel_shape hm))

/-- Witness for the amended C9 at a one-segment transcript. -/
theorem diarize_speaker_domain_witness :
    (⟨"Speaker 1", "hi", "10:00:00"⟩ : DiarizedSegment).speaker =
        "Speaker 1" ∨
      (⟨"Speaker 1", "hi", "10:00:00"⟩ : DiarizedSegment).speaker =
        "Speaker 2" ∨
      ∃ ds : List Char, ds ≠ [] ∧ (∀ c ∈ ds, c.isDigit = true) ∧
        (⟨"Speaker 1", "hi", "10:00:00"⟩ : DiarizedSegment).speaker =
          "Speaker " ++ String.mk ds :=
  diarize_speaker_domain "hi" ⟨"Speaker 1", "hi", "10:00:00"⟩ (by decide)
